import Mathlib

/-!
Verification of the DealPilot server (`src/server.js`), a single-endpoint
Express backend: `POST /api/find-and-buy` validates the request's `query`
string, asks a completion service for candidate retailer offers, filters and
scores them by unit price, sorts them ascending, and submits a checkout task
to a browser-automation service, normalizing its heterogeneous reply.

JavaScript runtime values are embedded as the inductive type `JVal`; JS
numbers are modelled as exact rationals plus the non-finite values NaN and
±Infinity (`JNum`).  JSON-parsed numbers are always finite.  The stable
JavaScript `Array.prototype.sort` (stable per ES2019) is modelled by
insertion sort, which is extensionally the unique stable sort for a total
preorder.  `JSON.parse` is embedded as a fuel-based recursive-descent parser
over the character list of the input string.
-/

namespace DealPilot

/-- A JavaScript number: an exact finite rational, or one of the three
non-finite values. -/
inductive JNum where
  | fin (q : ℚ)
  | posInf
  | negInf
  | nan
deriving DecidableEq

/-- A JavaScript runtime value as the server manipulates them.  Object
fields are kept in insertion order; objects built by the embedded JSON
parser never contain duplicate keys (a duplicate key overwrites the value
in place, as in JS).  A missing property is represented by `Option.none`
at use sites (JS `undefined`). -/
inductive JVal where
  | null
  | bool (b : Bool)
  | num (n : JNum)
  | str (s : String)
  | arr (elems : List JVal)
  | obj (fields : List (String × JVal))

/-- First binding of a key in an object's field list (field lists are
duplicate-free by construction, so this is JS property lookup). -/
def lookupField : List (String × JVal) → String → Option JVal
  | [], _ => none
  | (k', v) :: fs, k => if k' = k then some v else lookupField fs k

/-- JS property access `v.k`: fields of objects; `undefined` (`none`) on
every non-object, including arrays and primitives.  Callers are responsible
for the TypeError thrown by access on `null`. -/
def getProp : JVal → String → Option JVal
  | .obj fs, k => lookupField fs k
  | _, _ => none

/-- JS object update `{...fs, k: v}`: overwrite in place if the key exists,
else append at the end, as JS object spread plus a new key does. -/
def setField : List (String × JVal) → String → JVal → List (String × JVal)
  | [], k, v => [(k, v)]
  | (k', v') :: fs, k, v =>
    if k' = k then (k, v) :: fs else (k', v') :: setField fs k v

/-- JS truthiness of a value. -/
def truthy : JVal → Bool
  | .null => false
  | .bool b => b
  | .num (.fin q) => decide (q ≠ 0)
  | .num .nan => false
  | .num _ => true
  | .str s => decide (s ≠ "")
  | .arr _ => true
  | .obj _ => true

/-- JS `Number.isFinite` applied to a property-access result. -/
def jsIsFinite : Option JVal → Bool
  | some (.num (.fin _)) => true
  | _ => false

/-- JS `x > 0` applied to a property-access result, for the shapes the
server can reach (the filter only evaluates it after `Number.isFinite`). -/
def jsGtZero : Option JVal → Bool
  | some (.num (.fin q)) => decide (0 < q)
  | some (.num .posInf) => true
  | _ => false

/-- Extract the finite rational of a property-access result, defaulting to
zero (used only where validity has already been established). -/
def finQ : Option JVal → ℚ
  | some (.num (.fin q)) => q
  | _ => 0

/-- Exact rational division, written through `Rat.divInt` so that it is
kernel-computable (`Rat.mul` and `Rat.inv` are irreducible);
`jsDiv_eq_div` shows it agrees with `/` on `ℚ` everywhere. -/
def jsDiv (a b : ℚ) : ℚ :=
  Rat.divInt (a.num * b.den) (a.den * b.num)

/-- JVal is `null` (the only array element on which the server's filter
callback throws a TypeError). -/
def isNull : JVal → Bool
  | .null => true
  | _ => false

/-- JVal is an array (JS `Array.isArray`). -/
def isArrVal : JVal → Bool
  | .arr _ => true
  | _ => false

/-! ## Best-Offer Selector (`server.js` lines 82–89) -/

/-- The filter predicate of line 83:
`Number.isFinite(c.basePrice) && Number.isFinite(c.packSize) && c.packSize > 0`. -/
def validOffer (c : JVal) : Bool :=
  jsIsFinite (getProp c "basePrice") && jsIsFinite (getProp c "packSize")
    && jsGtZero (getProp c "packSize")

/-- The derived unit price `c.basePrice / c.packSize` (exact rational
division; the filter guarantees both operands are finite and the divisor
positive wherever this is used). -/
def unitPriceOf (c : JVal) : ℚ :=
  jsDiv (finQ (getProp c "basePrice")) (finQ (getProp c "packSize"))

/-- The map of line 84, `{ ...c, unitPrice: c.basePrice / c.packSize }`.
Only objects can pass `validOffer` (property access on non-objects yields
`undefined`), so the non-object branch is unreachable from the pipeline. -/
def scoreOffer (c : JVal) : JVal :=
  match c with
  | .obj fs => .obj (setField fs "unitPrice" (.num (.fin (unitPriceOf (.obj fs)))))
  | c => .obj [("unitPrice", .num (.fin (unitPriceOf c)))]

/-- `withUnits` of line 82: filter to valid offers, then score each. -/
def withUnits (cs : List JVal) : List JVal :=
  (cs.filter validOffer).map scoreOffer

/-- Read back the unit price of a scored offer. -/
def unitPriceQ (v : JVal) : ℚ :=
  finQ (getProp v "unitPrice")

/-- The sort relation of the comparator `(a, b) => a.unitPrice - b.unitPrice`
of line 88: `a` is placed no later than `b` exactly when its unit price is
less than or equal. -/
def offerOrd (a b : JVal) : Prop :=
  unitPriceQ a ≤ unitPriceQ b

instance : DecidableRel offerOrd := fun a b => inferInstanceAs (Decidable (_ ≤ _))

instance : IsTotal JVal offerOrd := ⟨fun a b => le_total _ _⟩

instance : IsTrans JVal offerOrd := ⟨fun _ _ _ => le_trans⟩

/-- The in-place stable sort of line 88 (JS `Array.prototype.sort` is
stable), modelled by insertion sort over `offerOrd`. -/
def sortOffers (l : List JVal) : List JVal :=
  l.insertionSort offerOrd

/-- The full selector output: valid offers scored, sorted ascending by
unit price. -/
def selectorOut (cs : List JVal) : List JVal :=
  sortOffers (withUnits cs)

/-- `best = withUnits[0]` of line 89: the head of the sorted output. -/
def bestOffer (cs : List JVal) : JVal :=
  (selectorOut cs).headD .null

/-! ## Embedded `JSON.parse` (recursive-descent, fuel-bounded) -/

/-- Skip JSON whitespace (space, tab, line feed, carriage return). -/
def skipWs : List Char → List Char
  | c :: cs =>
    if c = ' ' ∨ c = '\t' ∨ c = '\n' ∨ c = '\r' then skipWs cs else c :: cs
  | [] => []

/-- Value of a hexadecimal digit. -/
def hexVal (c : Char) : Option Nat :=
  if '0' ≤ c ∧ c ≤ '9' then some (c.toNat - '0'.toNat)
  else if 'a' ≤ c ∧ c ≤ 'f' then some (c.toNat - 'a'.toNat + 10)
  else if 'A' ≤ c ∧ c ≤ 'F' then some (c.toNat - 'A'.toNat + 10)
  else none

/-- Parse the body of a JSON string after the opening quote; returns the
content characters and the remainder after the closing quote.  `\uXXXX`
escapes become the scalar value of the code unit (surrogate pairs are not
recombined; no claim exercises them). -/
def parseStringChars : List Char → Option (List Char × List Char)
  | [] => none
  | '"' :: rest => some ([], rest)
  | '\\' :: rest =>
    match rest with
    | '"' :: rs => (parseStringChars rs).map (fun p => ('"' :: p.1, p.2))
    | '\\' :: rs => (parseStringChars rs).map (fun p => ('\\' :: p.1, p.2))
    | '/' :: rs => (parseStringChars rs).map (fun p => ('/' :: p.1, p.2))
    | 'b' :: rs => (parseStringChars rs).map (fun p => (Char.ofNat 8 :: p.1, p.2))
    | 'f' :: rs => (parseStringChars rs).map (fun p => (Char.ofNat 12 :: p.1, p.2))
    | 'n' :: rs => (parseStringChars rs).map (fun p => ('\n' :: p.1, p.2))
    | 'r' :: rs => (parseStringChars rs).map (fun p => ('\r' :: p.1, p.2))
    | 't' :: rs => (parseStringChars rs).map (fun p => ('\t' :: p.1, p.2))
    | 'u' :: h1 :: h2 :: h3 :: h4 :: rs =>
      match hexVal h1, hexVal h2, hexVal h3, hexVal h4 with
      | some a, some b, some c, some d =>
        (parseStringChars rs).map
          (fun p => (Char.ofNat (((a * 16 + b) * 16 + c) * 16 + d) :: p.1, p.2))
      | _, _, _, _ => none
    | _ => none
  | c :: rest =>
    if c.toNat < 32 then none
    else (parseStringChars rest).map (fun p => (c :: p.1, p.2))

/-- Leading run of decimal digits. -/
def takeDigits (cs : List Char) : List Char × List Char :=
  (cs.takeWhile Char.isDigit, cs.dropWhile Char.isDigit)

/-- Decimal value of a digit run. -/
def digitsToNat (ds : List Char) : Nat :=
  ds.foldl (fun acc c => acc * 10 + (c.toNat - '0'.toNat)) 0

/-- Parse the optional exponent part of a JSON number and assemble the
rational value from sign, mantissa and fractional length. -/
def parseExpPart (neg : Bool) (mant : Nat) (fracLen : Nat) (cs : List Char) :
    Option (ℚ × List Char) :=
  let mk : ℤ → List Char → Option (ℚ × List Char) := fun e rest =>
    let sgnMant : ℤ := if neg then -(mant : ℤ) else (mant : ℤ)
    some (Rat.divInt (sgnMant * 10 ^ e.toNat)
      ((10 : ℤ) ^ (fracLen + (-e).toNat)), rest)
  match cs with
  | 'e' :: r | 'E' :: r =>
    match r with
    | '+' :: r2 =>
      match takeDigits r2 with
      | ([], _) => none
      | (ds, rest) => mk (digitsToNat ds) rest
    | '-' :: r2 =>
      match takeDigits r2 with
      | ([], _) => none
      | (ds, rest) => mk (-(digitsToNat ds : ℤ)) rest
    | r2 =>
      match takeDigits r2 with
      | ([], _) => none
      | (ds, rest) => mk (digitsToNat ds) rest
  | _ => mk 0 cs

/-- Parse the optional fraction part of a JSON number. -/
def parseFracPart (neg : Bool) (ip : Nat) (cs : List Char) :
    Option (ℚ × List Char) :=
  match cs with
  | '.' :: r =>
    match takeDigits r with
    | ([], _) => none
    | (ds, rest) => parseExpPart neg (ip * 10 ^ ds.length + digitsToNat ds) ds.length rest
  | _ => parseExpPart neg ip 0 cs

/-- Parse a JSON number (JSON grammar: optional minus, integer part with no
leading zero, optional fraction, optional exponent). -/
def parseNumberQ (cs : List Char) : Option (ℚ × List Char) :=
  let core : List Char → Bool → Option (ℚ × List Char) := fun cs1 neg =>
    match cs1 with
    | '0' :: r =>
      match r with
      | d :: _ => if d.isDigit then none else parseFracPart neg 0 r
      | [] => parseFracPart neg 0 []
    | c :: r =>
      if c.isDigit then
        match takeDigits r with
        | (ds, rest) => parseFracPart neg (digitsToNat (c :: ds)) rest
      else none
    | [] => none
  match cs with
  | '-' :: r => core r true
  | _ => core cs false

mutual

/-- Parse one JSON value, fuel-bounded. -/
def parseValue : Nat → List Char → Option (JVal × List Char)
  | 0, _ => none
  | n + 1, cs =>
    match skipWs cs with
    | 'n' :: 'u' :: 'l' :: 'l' :: r => some (.null, r)
    | 't' :: 'r' :: 'u' :: 'e' :: r => some (.bool true, r)
    | 'f' :: 'a' :: 'l' :: 's' :: 'e' :: r => some (.bool false, r)
    | '"' :: r =>
      match parseStringChars r with
      | some (content, rest) => some (.str (String.mk content), rest)
      | none => none
    | '[' :: r =>
      match skipWs r with
      | ']' :: r2 => some (.arr [], r2)
      | r2 => parseItems n [] r2
    | '{' :: r =>
      match skipWs r with
      | '}' :: r2 => some (.obj [], r2)
      | r2 => parseMembers n [] r2
    | other =>
      match parseNumberQ other with
      | some (q, rest) => some (.num (.fin q), rest)
      | none => none

/-- Parse the remaining comma-separated items of a JSON array. -/
def parseItems : Nat → List JVal → List Char → Option (JVal × List Char)
  | 0, _, _ => none
  | n + 1, acc, cs =>
    match parseValue n cs with
    | some (v, rest) =>
      match skipWs rest with
      | ',' :: r2 => parseItems n (v :: acc) r2
      | ']' :: r2 => some (.arr (v :: acc).reverse, r2)
      | _ => none
    | none => none

/-- Parse the remaining comma-separated members of a JSON object.  A
duplicate key overwrites the earlier value in place, as `JSON.parse`
does. -/
def parseMembers : Nat → List (String × JVal) → List Char → Option (JVal × List Char)
  | 0, _, _ => none
  | n + 1, acc, cs =>
    match skipWs cs with
    | '"' :: r =>
      match parseStringChars r with
      | some (kcs, r2) =>
        match skipWs r2 with
        | ':' :: r3 =>
          match parseValue n r3 with
          | some (v, r4) =>
            match skipWs r4 with
            | ',' :: r5 => parseMembers n (setField acc (String.mk kcs) v) r5
            | '}' :: r5 => some (.obj (setField acc (String.mk kcs) v), r5)
            | _ => none
          | none => none
        | _ => none
      | none => none
    | _ => none

end

/-- The embedded `JSON.parse`: parse one value and require only trailing
whitespace after it; `none` models a thrown SyntaxError. -/
def jsonParse (s : String) : Option JVal :=
  match parseValue (4 * s.length + 8) s.toList with
  | some (v, rest) => if skipWs rest = [] then some v else none
  | none => none

/-! ## Offer Proposer normalization (`server.js` lines 67–79) -/

/-- The completion reply's textual payload, as the handler's try block
observes it: falsy content (the `|| "[]"` default applies), content that
`JSON.parse` rejects (the catch yields `[]`), or the parsed JSON value. -/
inductive ChatContent where
  | empty
  | unparseable
  | parsed (j : JVal)

/-- JS `x || …` applied to a property-access result: pass the value through
exactly when it is present and truthy, otherwise fall to the next operand. -/
def orFalsy : Option JVal → Option JVal
  | some v => if truthy v then some v else none
  | none => none

/-- The value of the `candidates` variable after lines 67–75:
`Array.isArray(parsed) ? parsed : (parsed.items || parsed.results || [])`,
with the surrounding try/catch.  Property access on a parsed `null` throws,
and the catch yields `[]`; on primitives it yields `undefined`, which is
falsy. -/
def candidatesVal : ChatContent → JVal
  | .empty => .arr []
  | .unparseable => .arr []
  | .parsed (.arr xs) => .arr xs
  | .parsed .null => .arr []
  | .parsed j =>
    match orFalsy (getProp j "items") with
    | some v => v
    | none =>
      match orFalsy (getProp j "results") with
      | some v => v
      | none => .arr []

/-- The sequence of raw offers the Offer Proposer stage effectively yields:
the candidates value when it is an array, the empty sequence otherwise. -/
def proposeOffers (c : ChatContent) : List JVal :=
  match candidatesVal c with
  | .arr xs => xs
  | _ => []

/-! ## Checkout Verifier normalization (`server.js` lines 107–151) -/

/-- The automation-service response as the handler observes it: the
transport status (`buResp.ok`), the body text (`buResp.text()`), and the
JSON value of the body (`buResp.json()`), `none` when the body is not
valid JSON and `.json()` throws. -/
structure BuResp where
  ok : Bool
  bodyText : String
  bodyJson : Option JVal

/-- JS `x ?? …` applied to a property-access result: pass the value through
unless it is `undefined` or `null`. -/
def coalesce : Option JVal → Option JVal
  | some .null => none
  | some v => some v
  | none => none

/-- Line 134–135: `buJson?.result ?? buJson?.data ?? buJson`. -/
def chooseCheckout (j : JVal) : JVal :=
  match coalesce (getProp j "result") with
  | some v => v
  | none =>
    match coalesce (getProp j "data") with
    | some v => v
    | none => j

/-- Index of the first occurrence of a character in a list. -/
def firstIdx (c : Char) : List Char → Option Nat
  | [] => none
  | x :: xs => if x = c then some 0 else (firstIdx c xs).map (· + 1)

/-- The match of the regular expression `\x7b[\s\S]*\x7d` on `s` (line 139):
greedy, so it spans from the first `{` through the last `}` of the whole
string, and exists exactly when some `}` occurs after the first `{`. -/
def braceSpan (s : String) : Option String :=
  let cs := s.toList
  match firstIdx '{' cs, firstIdx '}' cs.reverse with
  | some i, some k =>
    let j := cs.length - 1 - k
    if i < j then some (String.mk ((cs.drop i).take (j - i + 1))) else none
  | _, _ => none

/-- The value of the `checkout` variable after lines 128–144: `{}` when the
body is not valid JSON; otherwise unwrap `result`/`data` nesting; a string
result has its brace span extracted and parsed, degrading to
`{ raw: <string> }` when there is no span, and to `{}` (via the catch) when
the span fails to parse. -/
def checkoutOf : Option JVal → JVal
  | none => .obj []
  | some buJson =>
    match chooseCheckout buJson with
    | .str s =>
      match braceSpan s with
      | some sub =>
        match jsonParse sub with
        | some v => v
        | none => .obj []
      | none => .obj [("raw", .str s)]
    | v => v

/-! ## The request handler (`server.js` lines 37–156) -/

/-- The observable HTTP responses of `POST /api/find-and-buy`. -/
inductive HttpResp where
  | badRequest (error : String)
  | badGateway (error : String) (details : Option String)
  | serverError
  | success (query : String) (candidates : List JVal) (best : JVal) (checkout : JVal)

/-- Line 39–42: the destructured `query` passes validation exactly when it
is a non-empty string (`!query || typeof query !== "string"` rejects all
falsy values and all non-strings). -/
def jsQuery : Option JVal → Option String
  | some (.str s) => if s = "" then none else some s
  | _ => none

/-- Lines 82–151, after a non-empty candidates array was obtained: the
filter callback throws a TypeError on a `null` element (caught at top level
as a 500); an empty validated set is a 502; a non-success automation status
is a 502 carrying the body text; otherwise the 200 response with the sorted
candidates, the best offer, and the normalized checkout. -/
def afterCandidates (query : String) (xs : List JVal) (bu : BuResp) : HttpResp :=
  if xs.any isNull then .serverError
  else if (withUnits xs).isEmpty then .badGateway "Candidates missing price/packSize" none
  else if bu.ok then .success query (selectorOut xs) (bestOffer xs) (checkoutOf bu.bodyJson)
  else .badGateway "Browser-use request failed" (some bu.bodyText)

/-- Lines 67–79: a candidates value that is not an array, or is an empty
array, terminates with the 502 "LLM returned no candidates". -/
def afterQuery (query : String) (chat : ChatContent) (bu : BuResp) : HttpResp :=
  match candidatesVal chat with
  | .arr [] => .badGateway "LLM returned no candidates" none
  | .arr (c :: cs) => afterCandidates query (c :: cs) bu
  | _ => .badGateway "LLM returned no candidates" none

/-- The whole handler, as a function of the request's `query` value, the
completion reply and the automation reply. -/
def handler (q : Option JVal) (chat : ChatContent) (bu : BuResp) : HttpResp :=
  match jsQuery q with
  | none => .badRequest "Missing 'query' string"
  | some query => afterQuery query chat bu

/-! ## Concrete inputs used by witnesses and counterexamples -/

/-- The first raw offer of the spec's worked example: basePrice 30 for a
pack of 100. -/
def offer30per100 : JVal :=
  .obj [("basePrice", .num (.fin 30)), ("packSize", .num (.fin 100))]

/-- The second raw offer of the spec's worked example: basePrice 20 for a
pack of 50. -/
def offer20per50 : JVal :=
  .obj [("basePrice", .num (.fin 20)), ("packSize", .num (.fin 50))]

/-- A raw offer with a finite positive but non-integer packSize (5/2,
written through `Rat.divInt` to stay kernel-computable). -/
def offerHalfPack : JVal :=
  .obj [("retailer", .str "r"), ("basePrice", .num (.fin 40)),
        ("packSize", .num (.fin (Rat.divInt 5 2)))]

/-- The example automation reply body of the spec: embedded JSON between
plain text (braces written as hex escapes). -/
def exCheckoutStr : String :=
  "some text \x7b\"finalPrice\":12.5,\"checkoutUrl\":\"https://x\"\x7d trailing"

/-! ## General lemmas about the embedding -/

/-- The kernel-computable division `jsDiv` is ordinary division on `ℚ`. -/
theorem jsDiv_eq_div (a b : ℚ) : jsDiv a b = a / b := by
  rw [jsDiv, Rat.divInt_eq_div]
  push_cast
  by_cases hb : b = 0
  · simp [hb]
  · have had : ((a.den : ℚ)) ≠ 0 := by
      exact_mod_cast a.den_nz
    have hbd : ((b.den : ℚ)) ≠ 0 := by
      exact_mod_cast b.den_nz
    have hbn : ((b.num : ℚ)) ≠ 0 := by
      exact_mod_cast Rat.num_ne_zero.mpr hb
    rw [div_eq_div_iff (mul_ne_zero had hbn) hb]
    have ea := (div_eq_iff had).mp (Rat.num_div_den a)
    have eb := (div_eq_iff hbd).mp (Rat.num_div_den b)
    rw [ea, eb]
    ring

/-- Looking up the key just written by `setField` yields the new value. -/
theorem lookupField_setField_self (fs : List (String × JVal)) (k : String) (v : JVal) :
    lookupField (setField fs k v) k = some v := by
  induction fs with
  | nil => simp [setField, lookupField]
  | cons f fs ih =>
    obtain ⟨k0, v0⟩ := f
    by_cases hk : k0 = k
    · simp [setField, lookupField, hk]
    · simp [setField, lookupField, hk, ih]

/-- Looking up any other key after `setField` is unchanged. -/
theorem lookupField_setField_ne (fs : List (String × JVal)) (k : String)
    (v : JVal) (j : String) (h : j ≠ k) :
    lookupField (setField fs k v) j = lookupField fs j := by
  induction fs with
  | nil => simp [setField, lookupField, h.symm]
  | cons f fs ih =>
    obtain ⟨k0, v0⟩ := f
    by_cases hk : k0 = k
    · subst hk
      simp [setField, lookupField, h.symm]
    · by_cases hj : k0 = j
      · simp [setField, lookupField, hk, hj, h]
      · simp [setField, lookupField, hk, hj, ih]

/-- An offer passes the line-83 filter exactly when its `basePrice` is a
finite number and its `packSize` is a finite number strictly greater than
zero. -/
theorem validOffer_iff (c : JVal) :
    validOffer c = true ↔
      (∃ b : ℚ, getProp c "basePrice" = some (.num (.fin b)))
      ∧ ∃ p : ℚ, getProp c "packSize" = some (.num (.fin p)) ∧ 0 < p := by
  constructor
  · intro h
    simp only [validOffer, Bool.and_eq_true] at h
    obtain ⟨⟨hb, hp⟩, hz⟩ := h
    refine ⟨?_, ?_⟩
    · cases hbp : getProp c "basePrice" with
      | none => rw [hbp] at hb; simp [jsIsFinite] at hb
      | some v =>
        cases v with
        | num n =>
          cases n with
          | fin b => exact ⟨b, rfl⟩
          | posInf => rw [hbp] at hb; simp [jsIsFinite] at hb
          | negInf => rw [hbp] at hb; simp [jsIsFinite] at hb
          | nan => rw [hbp] at hb; simp [jsIsFinite] at hb
        | null => rw [hbp] at hb; simp [jsIsFinite] at hb
        | bool b => rw [hbp] at hb; simp [jsIsFinite] at hb
        | str s => rw [hbp] at hb; simp [jsIsFinite] at hb
        | arr xs => rw [hbp] at hb; simp [jsIsFinite] at hb
        | obj fs => rw [hbp] at hb; simp [jsIsFinite] at hb
    · cases hpp : getProp c "packSize" with
      | none => rw [hpp] at hp; simp [jsIsFinite] at hp
      | some v =>
        cases v with
        | num n =>
          cases n with
          | fin p =>
            refine ⟨p, rfl, ?_⟩
            rw [hpp] at hz
            simpa [jsGtZero] using hz
          | posInf => rw [hpp] at hp; simp [jsIsFinite] at hp
          | negInf => rw [hpp] at hp; simp [jsIsFinite] at hp
          | nan => rw [hpp] at hp; simp [jsIsFinite] at hp
        | null => rw [hpp] at hp; simp [jsIsFinite] at hp
        | bool b => rw [hpp] at hp; simp [jsIsFinite] at hp
        | str s => rw [hpp] at hp; simp [jsIsFinite] at hp
        | arr xs => rw [hpp] at hp; simp [jsIsFinite] at hp
        | obj fs => rw [hpp] at hp; simp [jsIsFinite] at hp
  · rintro ⟨⟨b, hb⟩, p, hp, hpos⟩
    simp [validOffer, jsIsFinite, jsGtZero, hb, hp, hpos]

/-- Any value with a readable property is an object. -/
theorem eq_obj_of_getProp (c : JVal) (k : String) (v : JVal)
    (h : getProp c k = some v) : ∃ fs, c = .obj fs := by
  cases c <;> simp [getProp] at h ⊢

/-- The scored offer's `unitPrice` is exactly `basePrice / packSize`. -/
theorem getProp_scoreOffer_unitPrice (c : JVal) (b p : ℚ)
    (hb : getProp c "basePrice" = some (.num (.fin b)))
    (hp : getProp c "packSize" = some (.num (.fin p))) :
    getProp (scoreOffer c) "unitPrice" = some (.num (.fin (b / p))) := by
  obtain ⟨fs, rfl⟩ := eq_obj_of_getProp c _ _ hb
  simp only [scoreOffer, getProp, lookupField_setField_self]
  rw [show unitPriceOf (.obj fs) = b / p by
    simp [unitPriceOf, hb, hp, finQ, jsDiv_eq_div]]

/-- Scoring changes no property other than `unitPrice`. -/
theorem getProp_scoreOffer_other (fs : List (String × JVal)) (k : String)
    (h : k ≠ "unitPrice") :
    getProp (scoreOffer (.obj fs)) k = getProp (.obj fs) k := by
  simp [scoreOffer, getProp, lookupField_setField_ne _ _ _ _ h]

/-- Stability of the modelled sort: filtering by any property that forces
the order relation both ways commutes with sorting. -/
theorem filter_sortOffers (P : JVal → Bool)
    (hP : ∀ a b, P a = true → P b = true → offerOrd a b) (l : List JVal) :
    (sortOffers l).filter P = l.filter P := by
  have hpw : (l.filter P).Pairwise offerOrd :=
    List.pairwise_of_forall_mem_list fun a ha b hb =>
      hP a b (List.of_mem_filter ha) (List.of_mem_filter hb)
  have hsub : List.Sublist (l.filter P) (sortOffers l) :=
    List.sublist_insertionSort hpw (List.filter_sublist l)
  have hsub2 : List.Sublist ((l.filter P).filter P) ((sortOffers l).filter P) :=
    hsub.filter P
  rw [List.filter_filter] at hsub2
  simp only [Bool.and_self] at hsub2
  have hperm : List.Perm ((sortOffers l).filter P) (l.filter P) :=
    (List.perm_insertionSort offerOrd l).filter P
  exact (hsub2.eq_of_length hperm.length_eq.symm).symm

/-- The sorted output is sorted ascending by unit price. -/
theorem sortOffers_sorted (l : List JVal) :
    (sortOffers l).Pairwise (fun a b => unitPriceQ a ≤ unitPriceQ b) :=
  List.sorted_insertionSort offerOrd l

/-- Sorting permutes, so membership is unchanged. -/
theorem mem_sortOffers (l : List JVal) (v : JVal) :
    v ∈ sortOffers l ↔ v ∈ l :=
  List.mem_insertionSort offerOrd

/-- The handler's branch on candidates depends on the completion reply only
through the normalized candidates value. -/
theorem afterQuery_congr (s : String) (c1 c2 : ChatContent) (bu : BuResp)
    (h : candidatesVal c1 = candidatesVal c2) :
    afterQuery s c1 bu = afterQuery s c2 bu := by
  simp only [afterQuery, h]

/-- When the Offer Proposer yields no offers, the handler answers the 502
"LLM returned no candidates". -/
theorem afterQuery_noCandidates (s : String) (chat : ChatContent) (bu : BuResp)
    (h : proposeOffers chat = []) :
    afterQuery s chat bu = .badGateway "LLM returned no candidates" none := by
  cases hc : candidatesVal chat with
  | arr xs =>
    have hx : xs = [] := by simpa [proposeOffers, hc] using h
    subst hx
    simp [afterQuery, hc]
  | null => simp [afterQuery, hc]
  | bool b => simp [afterQuery, hc]
  | num n => simp [afterQuery, hc]
  | str st => simp [afterQuery, hc]
  | obj fs => simp [afterQuery, hc]

/-- A parsed completion reply that is not an array and whose `items` and
`results` members (when present and truthy) are not arrays yields an empty
offer sequence. -/
theorem proposeOffers_parsed_nil (j : JVal) (hj : isArrVal j = false)
    (hitems : ∀ v, orFalsy (getProp j "items") = some v → isArrVal v = false)
    (hres : ∀ v, orFalsy (getProp j "results") = some v → isArrVal v = false) :
    proposeOffers (.parsed j) = [] := by
  cases j with
  | arr xs => simp [isArrVal] at hj
  | null => rfl
  | bool b => rfl
  | num n => rfl
  | str st => rfl
  | obj fs =>
    cases ho : orFalsy (getProp (JVal.obj fs) "items") with
    | some v =>
      have hv := hitems v ho
      have hcv : candidatesVal (.parsed (.obj fs)) = v := by
        simp [candidatesVal, ho]
      cases v <;> simp [proposeOffers, hcv] <;> simp [isArrVal] at hv
    | none =>
      cases hr : orFalsy (getProp (JVal.obj fs) "results") with
      | some w =>
        have hw := hres w hr
        have hcv : candidatesVal (.parsed (.obj fs)) = w := by
          simp [candidatesVal, ho, hr]
        cases w <;> simp [proposeOffers, hcv] <;> simp [isArrVal] at hw
      | none =>
        have hcv : candidatesVal (.parsed (.obj fs)) = .arr [] := by
          simp [candidatesVal, ho, hr]
        simp [proposeOffers, hcv]

/-- A candidate list with no `null` entry does not make the filter throw. -/
theorem any_isNull_eq_false (xs : List JVal) (h : ∀ c ∈ xs, isNull c = false) :
    xs.any isNull = false := by
  rw [List.any_eq_false]
  intro a ha
  simp [h a ha]

/-- The handler's 200 path: valid query, non-empty candidate array with no
nulls, non-empty validated set, successful automation status. -/
theorem handler_success (q : Option JVal) (s : String) (chat : ChatContent)
    (xs : List JVal) (bu : BuResp)
    (hq : jsQuery q = some s) (hc : candidatesVal chat = .arr xs) (hne : xs ≠ [])
    (hnull : ∀ c ∈ xs, isNull c = false) (hvalid : withUnits xs ≠ [])
    (hok : bu.ok = true) :
    handler q chat bu
      = .success s (selectorOut xs) (bestOffer xs) (checkoutOf bu.bodyJson) := by
  cases xs with
  | nil => exact absurd rfl hne
  | cons c cs =>
    have h1 : (c :: cs).any isNull = false := any_isNull_eq_false _ hnull
    have h2 : (withUnits (c :: cs)).isEmpty = false := by
      rw [← Bool.not_eq_true, List.isEmpty_iff]
      exact hvalid
    simp [handler, hq, afterQuery, hc, afterCandidates, h1, h2, hok]

/-! ## Claim theorems -/

/-- C1: for every sequence of raw offers given to the Best-Offer Selector,
the output list is sorted ascending by `unitPrice`, offers with equal
`unitPrice` keep their original relative order (stable sort: filtering the
output by any fixed unit price gives exactly the corresponding filter of
the scored input, in order), and whenever the output is non-empty the
designated best offer is exactly its first element. -/
theorem selector_sorted_stable_best (cs : List JVal) :
    (selectorOut cs).Pairwise (fun a b => unitPriceQ a ≤ unitPriceQ b)
    ∧ (∀ k : ℚ, (selectorOut cs).filter (fun a => decide (unitPriceQ a = k))
        = (withUnits cs).filter (fun a => decide (unitPriceQ a = k)))
    ∧ ∀ a l, selectorOut cs = a :: l → bestOffer cs = a := by
  refine ⟨sortOffers_sorted _, fun k => filter_sortOffers _ ?_ _, fun a l h => ?_⟩
  · intro a b ha hb
    simp only [decide_eq_true_eq] at ha hb
    show unitPriceQ a ≤ unitPriceQ b
    rw [ha, hb]
  · simp [bestOffer, h]

/-- Witness for C1 at the spec's worked example: the best offer is the
head of the sorted output. -/
theorem selector_sorted_stable_best_witness :
    bestOffer [offer30per100, offer20per50] = scoreOffer offer30per100 :=
  (selector_sorted_stable_best [offer30per100, offer20per50]).2.2
    (scoreOffer offer30per100) [scoreOffer offer20per50] rfl

/-- C2: a raw offer contributes a scored offer exactly when its `basePrice`
is a finite number and its `packSize` is a finite number strictly greater
than zero; offers failing this are absent from the output; each scored
offer's `unitPrice` is its `basePrice` divided by its `packSize`, and every
other field is unchanged. -/
theorem withUnits_inclusion_exclusion (cs : List JVal) :
    (∀ c ∈ cs, validOffer c = true → scoreOffer c ∈ withUnits cs)
    ∧ (∀ s ∈ withUnits cs, ∃ c ∈ cs, validOffer c = true ∧ s = scoreOffer c)
    ∧ (∀ s, s ∈ selectorOut cs ↔ s ∈ withUnits cs)
    ∧ (∀ c : JVal, validOffer c = true ↔
        (∃ b : ℚ, getProp c "basePrice" = some (.num (.fin b)))
        ∧ ∃ p : ℚ, getProp c "packSize" = some (.num (.fin p)) ∧ 0 < p)
    ∧ (∀ (c : JVal) (b p : ℚ), getProp c "basePrice" = some (.num (.fin b)) →
        getProp c "packSize" = some (.num (.fin p)) →
        getProp (scoreOffer c) "unitPrice" = some (.num (.fin (b / p))))
    ∧ ∀ (fs : List (String × JVal)) (k : String), k ≠ "unitPrice" →
        getProp (scoreOffer (.obj fs)) k = getProp (.obj fs) k := by
  refine ⟨fun c hc hv => List.mem_map_of_mem _ (List.mem_filter.mpr ⟨hc, hv⟩),
    fun s hs => ?_, fun s => mem_sortOffers _ s, validOffer_iff,
    getProp_scoreOffer_unitPrice, fun fs k h => getProp_scoreOffer_other fs k h⟩
  rcases List.mem_map.mp hs with ⟨c, hcf, rfl⟩
  rcases List.mem_filter.mp hcf with ⟨hc, hv⟩
  exact ⟨c, hc, hv, rfl⟩

/-- Witness for C2: a valid offer is included in the scored output. -/
theorem withUnits_inclusion_exclusion_witness :
    scoreOffer offer20per50 ∈ withUnits [offer20per50] :=
  (withUnits_inclusion_exclusion [offer20per50]).1 offer20per50
    (List.mem_singleton.mpr rfl) rfl

/-- Counterexample to C3: the claim asserts that no scored offer is
constructed from a raw offer with a finite positive non-integer `packSize`
(such as 2.5), but the line-83 filter checks only finiteness and
positivity, so the offer with packSize 5/2 does produce a scored offer. -/
theorem nonIntegerPackSize_counterexample :
    ¬ (withUnits [offerHalfPack] = []) := by
  intro h
  have h1 : (withUnits [offerHalfPack]).length = 1 := rfl
  rw [h] at h1
  exact absurd h1 (by decide)

/-- C3 as amended: a scored offer is constructed from every raw offer whose
`basePrice` is a finite number and whose `packSize` is a finite number
strictly greater than zero, integral or not; integrality of `packSize` is
not checked. -/
theorem scoredOffer_positive_packSize (cs : List JVal) (c : JVal) (b p : ℚ)
    (hc : c ∈ cs)
    (hb : getProp c "basePrice" = some (.num (.fin b)))
    (hp : getProp c "packSize" = some (.num (.fin p)))
    (hpos : 0 < p) :
    scoreOffer c ∈ withUnits cs :=
  List.mem_map_of_mem _
    (List.mem_filter.mpr ⟨hc, (validOffer_iff c).mpr ⟨⟨b, hb⟩, p, hp, hpos⟩⟩)

/-- Witness for the amended C3 at the non-integer packSize 5/2. -/
theorem scoredOffer_positive_packSize_witness :
    scoreOffer offerHalfPack ∈ withUnits [offerHalfPack] :=
  scoredOffer_positive_packSize [offerHalfPack] offerHalfPack 40 (Rat.divInt 5 2)
    (List.mem_singleton.mpr rfl) rfl rfl (by decide)

/-- Counterexample to C4: on the input
`[{basePrice:30, packSize:100}, {basePrice:20, packSize:50}]` the claim
expects the output order `[unitPrice=0.4, unitPrice=0.6]`, but the computed
unit prices are 30/100 = 0.3 and 20/50 = 0.4, so the output order is
`[0.3, 0.4]`, not `[0.4, 0.6]`. -/
theorem workedExample_counterexample :
    ¬ ((selectorOut [offer30per100, offer20per50]).map unitPriceQ
        = [2 / 5, 3 / 5]) := by
  rw [(by rw [Rat.divInt_eq_div]; norm_num : (2 : ℚ) / 5 = Rat.divInt 2 5),
    (by rw [Rat.divInt_eq_div]; norm_num : (3 : ℚ) / 5 = Rat.divInt 3 5)]
  decide

/-- Counterexample to C5: a non-empty candidate sequence in which no offer
passes validation does not always terminate with the 502 "Candidates
missing price/packSize": a `null` candidate makes the filter callback throw
a TypeError, which the top-level catch turns into the opaque 500. -/
theorem nullCandidate_counterexample :
    handler (some (.str "q")) (.parsed (.arr [.null])) ⟨true, "", none⟩
      = .serverError
    ∧ handler (some (.str "q")) (.parsed (.arr [.null])) ⟨true, "", none⟩
      ≠ .badGateway "Candidates missing price/packSize" none := by
  refine ⟨rfl, ?_⟩
  intro h
  rw [show handler (some (.str "q")) (.parsed (.arr [.null])) ⟨true, "", none⟩
      = .serverError from rfl] at h
  exact HttpResp.noConfusion h

/-- C5 as amended: an empty, unparseable, or neither-array-nor-wrapped-array
completion reply makes the Offer Proposer yield the empty sequence and the
request terminate with the 502 "LLM returned no candidates"; and a
non-empty candidate sequence with no `null` entry in which no offer passes
validation terminates with the distinct 502 "Candidates missing
price/packSize" (a `null` candidate instead yields the opaque 500). -/
theorem upstreamDataErrors :
    (proposeOffers .empty = [] ∧ proposeOffers .unparseable = [])
    ∧ (∀ (q : Option JVal) (s : String) (bu : BuResp), jsQuery q = some s →
        handler q .empty bu = .badGateway "LLM returned no candidates" none
        ∧ handler q .unparseable bu = .badGateway "LLM returned no candidates" none)
    ∧ (∀ j : JVal, isArrVal j = false →
        (∀ v, orFalsy (getProp j "items") = some v → isArrVal v = false) →
        (∀ v, orFalsy (getProp j "results") = some v → isArrVal v = false) →
        proposeOffers (.parsed j) = []
        ∧ ∀ (q : Option JVal) (s : String) (bu : BuResp), jsQuery q = some s →
            handler q (.parsed j) bu = .badGateway "LLM returned no candidates" none)
    ∧ ∀ (q : Option JVal) (s : String) (xs : List JVal) (bu : BuResp),
        jsQuery q = some s → xs ≠ [] →
        (∀ c ∈ xs, isNull c = false) → (∀ c ∈ xs, validOffer c = false) →
        handler q (.parsed (.arr xs)) bu
          = .badGateway "Candidates missing price/packSize" none := by
  refine ⟨⟨rfl, rfl⟩, fun q s bu hq => ?_, fun j hj hitems hres => ?_, ?_⟩
  · constructor <;> simp [handler, hq] <;>
      exact afterQuery_noCandidates s _ bu rfl
  · have hnil := proposeOffers_parsed_nil j hj hitems hres
    refine ⟨hnil, fun q s bu hq => ?_⟩
    simp only [handler, hq]
    exact afterQuery_noCandidates s _ bu hnil
  · intro q s xs bu hq hne hnull hinvalid
    cases xs with
    | nil => exact absurd rfl hne
    | cons c cs =>
      have h1 : (c :: cs).any isNull = false := any_isNull_eq_false _ hnull
      have h2 : withUnits (c :: cs) = [] := by
        rw [withUnits, List.filter_eq_nil_iff.mpr ?_, List.map_nil]
        intro a ha
        simp [hinvalid a ha]
      simp [handler, hq, afterQuery, candidatesVal, afterCandidates, h1, h2]

/-- Witness for the amended C5: a candidate lacking price and packSize
produces the 502 "Candidates missing price/packSize". -/
theorem upstreamDataErrors_witness :
    handler (some (.str "q")) (.parsed (.arr [.obj []])) ⟨true, "", none⟩
      = .badGateway "Candidates missing price/packSize" none :=
  upstreamDataErrors.2.2.2 (some (.str "q")) "q" [.obj []] ⟨true, "", none⟩ rfl
    (by simp) (by intro c hc; rw [List.mem_singleton] at hc; subst hc; rfl)
    (by intro c hc; rw [List.mem_singleton] at hc; subst hc; rfl)

/-- Counterexample to C6: for a normalized string reply containing a brace
span that is not valid JSON, the claim expects the degraded carrier
`obj [("raw", <original string>)]`, but the `JSON.parse` failure is caught
and the checkout value is the empty object instead. -/
theorem checkoutRawFallback_counterexample :
    handler (some (.str "q")) (.parsed (.arr [offer30per100]))
        ⟨true, "", some (.str "x \x7ba\x7d y")⟩
      = .success "q" (selectorOut [offer30per100]) (bestOffer [offer30per100])
          (.obj [])
    ∧ JVal.obj [] ≠ .obj [("raw", .str "x \x7ba\x7d y")] := by
  refine ⟨rfl, ?_⟩
  intro h
  injection h with h1
  simp at h1

/-- C6 as amended: when the normalized automation reply is a string, the
embedded JSON is recovered by taking the span from the first opening brace
through the last closing brace and parsing it — in particular the example
body yields finalPrice 12.5 (= 25/2) and checkoutUrl "https://x" — when the
string contains no such span the result degrades to the raw carrier, and
when the span exists but fails to parse the checkout value is the empty
object instead. -/
theorem checkoutStringRecovery :
    checkoutOf (some (.str exCheckoutStr))
        = .obj [("finalPrice", .num (.fin (Rat.divInt 25 2))),
                ("checkoutUrl", .str "https://x")]
    ∧ Rat.divInt 25 2 = (25 : ℚ) / 2
    ∧ (∀ (j : JVal) (st : String), chooseCheckout j = .str st →
        braceSpan st = none → checkoutOf (some j) = .obj [("raw", .str st)])
    ∧ (∀ (j : JVal) (st sub : String), chooseCheckout j = .str st →
        braceSpan st = some sub → jsonParse sub = none →
        checkoutOf (some j) = .obj [])
    ∧ ∀ (j v : JVal) (st sub : String), chooseCheckout j = .str st →
        braceSpan st = some sub → jsonParse sub = some v →
        checkoutOf (some j) = v := by
  refine ⟨rfl, by rw [Rat.divInt_eq_div]; norm_num, ?_, ?_, ?_⟩
  · intro j st hcc hbs
    simp [checkoutOf, hcc, hbs]
  · intro j st sub hcc hbs hp
    simp [checkoutOf, hcc, hbs, hp]
  · intro j v st sub hcc hbs hp
    simp [checkoutOf, hcc, hbs, hp]

/-- Witness for the amended C6: a string with no brace span degrades to the
raw carrier. -/
theorem checkoutStringRecovery_witness :
    checkoutOf (some (.str "plain text")) = .obj [("raw", .str "plain text")] :=
  checkoutStringRecovery.2.2.1 (.str "plain text") "plain text" rfl rfl

/-- C7: a completion reply wrapping the offer array under `items` (and
likewise `results`) normalizes to the inner array and the whole request
behaves identically to receiving the bare array. -/
theorem wrappedArray_equivalence (q : Option JVal) (bu : BuResp) (xs : List JVal) :
    candidatesVal (.parsed (.obj [("items", .arr xs)])) = .arr xs
    ∧ candidatesVal (.parsed (.obj [("results", .arr xs)])) = .arr xs
    ∧ handler q (.parsed (.obj [("items", .arr xs)])) bu
        = handler q (.parsed (.arr xs)) bu
    ∧ handler q (.parsed (.obj [("results", .arr xs)])) bu
        = handler q (.parsed (.arr xs)) bu := by
  have h1 : candidatesVal (.parsed (.obj [("items", .arr xs)])) = .arr xs := by
    simp [candidatesVal, getProp, lookupField, orFalsy, truthy]
  have h2 : candidatesVal (.parsed (.obj [("results", .arr xs)])) = .arr xs := by
    simp [candidatesVal, getProp, lookupField, orFalsy, truthy]
  refine ⟨h1, h2, ?_, ?_⟩
  · cases hq : jsQuery q with
    | none => simp [handler, hq]
    | some s =>
      simp only [handler, hq]
      exact afterQuery_congr s _ _ bu h1
  · cases hq : jsQuery q with
    | none => simp [handler, hq]
    | some s =>
      simp only [handler, hq]
      exact afterQuery_congr s _ _ bu h2

/-- C8: a non-success automation transport status terminates the request
with the 502 "Browser-use request failed" carrying the response body text,
and no success response is produced. -/
theorem browserUseFailure (q : Option JVal) (s : String) (chat : ChatContent)
    (xs : List JVal) (bu : BuResp)
    (hq : jsQuery q = some s) (hc : candidatesVal chat = .arr xs) (hne : xs ≠ [])
    (hnull : ∀ c ∈ xs, isNull c = false) (hvalid : withUnits xs ≠ [])
    (hok : bu.ok = false) :
    handler q chat bu
      = .badGateway "Browser-use request failed" (some bu.bodyText) := by
  cases xs with
  | nil => exact absurd rfl hne
  | cons c cs =>
    have h1 : (c :: cs).any isNull = false := any_isNull_eq_false _ hnull
    have h2 : (withUnits (c :: cs)).isEmpty = false := by
      rw [← Bool.not_eq_true, List.isEmpty_iff]
      exact hvalid
    simp [handler, hq, afterQuery, hc, afterCandidates, h1, h2, hok]

/-- Witness for C8: a failed automation call surfaces its body text. -/
theorem browserUseFailure_witness :
    handler (some (.str "q")) (.parsed (.arr [offer30per100])) ⟨false, "oops", none⟩
      = .badGateway "Browser-use request failed" (some "oops") :=
  browserUseFailure (some (.str "q")) "q" (.parsed (.arr [offer30per100]))
    [offer30per100] ⟨false, "oops", none⟩ rfl rfl (by simp)
    (by intro c hc; rw [List.mem_singleton] at hc; subst hc; rfl)
    (fun h => List.cons_ne_nil _ _ h) rfl

/-- C10 (implicit): with a success transport status, a body that is not
valid JSON — or a normalized string reply whose brace span fails to parse —
still yields HTTP 200 whose checkout field is the empty object, which has
no `finalPrice`, `checkoutUrl` or `raw` property. -/
theorem checkoutEmptyOnParseFailure (q : Option JVal) (s : String)
    (chat : ChatContent) (xs : List JVal) (bu : BuResp)
    (hq : jsQuery q = some s) (hc : candidatesVal chat = .arr xs) (hne : xs ≠ [])
    (hnull : ∀ c ∈ xs, isNull c = false) (hvalid : withUnits xs ≠ [])
    (hok : bu.ok = true) :
    (bu.bodyJson = none →
        handler q chat bu = .success s (selectorOut xs) (bestOffer xs) (.obj []))
    ∧ (∀ (v : JVal) (st sub : String), bu.bodyJson = some v →
        chooseCheckout v = .str st → braceSpan st = some sub →
        jsonParse sub = none →
        handler q chat bu = .success s (selectorOut xs) (bestOffer xs) (.obj []))
    ∧ ∀ k, getProp (JVal.obj []) k = none := by
  have hmain := handler_success q s chat xs bu hq hc hne hnull hvalid hok
  refine ⟨fun hb => ?_, fun v st sub hb hcc hbs hp => ?_, fun k => rfl⟩
  · rw [hmain, hb]
    rfl
  · rw [hmain, hb]
    simp [checkoutOf, hcc, hbs, hp]

/-- Witness for C10: an invalid-JSON body still yields 200 with an empty
checkout object. -/
theorem checkoutEmptyOnParseFailure_witness :
    handler (some (.str "q")) (.parsed (.arr [offer30per100])) ⟨true, "zz", none⟩
      = .success "q" (selectorOut [offer30per100]) (bestOffer [offer30per100])
          (.obj []) :=
  (checkoutEmptyOnParseFailure (some (.str "q")) "q" (.parsed (.arr [offer30per100]))
    [offer30per100] ⟨true, "zz", none⟩ rfl rfl (by simp)
    (by intro c hc; rw [List.mem_singleton] at hc; subst hc; rfl)
    (fun h => List.cons_ne_nil _ _ h) rfl).1 rfl

/-- C9: a missing, non-string or empty `query` is rejected with the 400
"Missing 'query' string" independently of both upstream replies, and a
non-empty string query is never so rejected. -/
theorem queryValidation (q : Option JVal) (chat : ChatContent) (bu : BuResp) :
    (jsQuery q = none ↔ ¬ ∃ s : String, q = some (.str s) ∧ s ≠ "")
    ∧ (jsQuery q = none →
        handler q chat bu = .badRequest "Missing 'query' string"
        ∧ ∀ (chat' : ChatContent) (bu' : BuResp),
            handler q chat bu = handler q chat' bu')
    ∧ ∀ s : String, jsQuery q = some s →
        handler q chat bu ≠ .badRequest "Missing 'query' string" := by
  refine ⟨?_, fun h => ⟨by simp [handler, h], fun chat' bu' => by simp [handler, h]⟩,
    fun s hs => ?_⟩
  · cases q with
    | none => simp [jsQuery]
    | some v =>
      cases v with
      | str s =>
        by_cases h : s = ""
        · subst h; simp [jsQuery]
        · simp [jsQuery, h]
      | null => simp [jsQuery]
      | bool b => simp [jsQuery]
      | num n => simp [jsQuery]
      | arr ys => simp [jsQuery]
      | obj fs => simp [jsQuery]
  · simp only [handler, hs]
    cases hc : candidatesVal chat with
    | arr ys =>
      cases ys with
      | nil => simp [afterQuery, hc]
      | cons c cs =>
        simp only [afterQuery, hc, afterCandidates]
        split_ifs <;> simp
    | null => simp [afterQuery, hc]
    | bool b => simp [afterQuery, hc]
    | num n => simp [afterQuery, hc]
    | str st => simp [afterQuery, hc]
    | obj fs => simp [afterQuery, hc]

/-- Witness for C9: a numeric query is rejected with the 400. -/
theorem queryValidation_witness :
    handler (some (.num (.fin 7))) .empty ⟨true, "", none⟩
      = .badRequest "Missing 'query' string" :=
  ((queryValidation (some (.num (.fin 7))) .empty ⟨true, "", none⟩).2.1 rfl).1

/-- C4 as amended: for the input
`[{basePrice:30, packSize:100}, {basePrice:20, packSize:50}]` the selector
produces the output order `[unitPrice=0.3, unitPrice=0.4]` and designates
the first element of that output as best. -/
theorem workedExample :
    (selectorOut [offer30per100, offer20per50]).map unitPriceQ = [3 / 10, 2 / 5]
    ∧ bestOffer [offer30per100, offer20per50] = scoreOffer offer30per100
    ∧ (selectorOut [offer30per100, offer20per50]).head?
        = some (bestOffer [offer30per100, offer20per50]) := by
  refine ⟨?_, rfl, rfl⟩
  rw [(by rw [Rat.divInt_eq_div]; norm_num : (3 : ℚ) / 10 = Rat.divInt 3 10),
    (by rw [Rat.divInt_eq_div]; norm_num : (2 : ℚ) / 5 = Rat.divInt 2 5)]
  decide

end DealPilot
